import Mathlib

/-!
# Verification of the job-record reconciliation and storage engine

Shallow embedding of the core of `thatnerd/job_search_automation`: the
salary parser, the `JobRecord` canonical schema, the storage engine
(`upsert_job`, `get_job`, `search_jobs`, `mark_jobs_removed`,
`create_scrape_session`) and the JSON materialization of records.

The implementation module `lib/job_database.py` is not present under `src/`
(only its test suite is), so the definitions below are modelled from the
specification (`spec.md` §3–§4), with every behavior that the repository's
own tests pin down taken from those tests
(`src/test/test_job_database.py`, `src/test/test_job_database_operations.py`,
`src/test/test_job_database_json_schema.py`).

Timestamps are modelled as natural numbers supplied explicitly to each
mutating operation (the code's `now`); salaries are natural numbers.
-/

/-- Digits of a decimal numeral to its value, most significant first. -/
def digitsToNat (ds : List Char) : Nat :=
  ds.foldl (fun a c => a * 10 + (c.toNat - '0'.toNat)) 0

/-- Modelled from the spec: amount grammar `$<number>[,]*K/yr` of §4.1
(case-insensitive on `K` and `yr`).  An optional comma group is accepted
inside the number; the value is the integer formed by the digits BEFORE the
comma, multiplied by 1000.  The pre-comma reading (rather than the spec's
"comma stripped" wording) is pinned by
`test_parse_salary_single_values`: `parse_salary("$100,000K/yr") == (100000, 100000)`.
Returns the parsed value and the unconsumed remainder of the input. -/
def parseAmount : List Char → Option (Nat × List Char)
  | [] => none
  | c :: cs =>
    if c = '$' then
      let ds := cs.takeWhile Char.isDigit
      let rest := cs.dropWhile Char.isDigit
      if ds.isEmpty then none
      else
        let rest2 :=
          match rest with
          | [] => rest
          | c2 :: cs2 =>
            if c2 = ',' ∧ ¬(cs2.takeWhile Char.isDigit).isEmpty then
              cs2.dropWhile Char.isDigit
            else rest
        match rest2 with
        | k :: sl :: y :: r :: tail =>
          if (k.toLower = 'k' ∧ sl = '/' ∧ y.toLower = 'y' ∧ r.toLower = 'r') then
            some (digitsToNat ds * 1000, tail)
          else none
        | _ => none
    else none

/-- Modelled from the spec: a single amount consuming the entire input. -/
def parseSingle (cs : List Char) : Option Nat :=
  match parseAmount cs with
  | some (v, []) => some v
  | _ => none

/-- Modelled from the spec: range form `$<amt1>/yr - $<amt2>/yr` with 0+
spaces around the hyphen, consuming the entire input; no ordering
correction is applied (§4.1). -/
def parseRange (cs : List Char) : Option (Nat × Nat) :=
  match parseAmount cs with
  | some (a, rest) =>
    match rest.dropWhile (fun c => c = ' ') with
    | '-' :: rest2 =>
      match parseAmount (rest2.dropWhile (fun c => c = ' ')) with
      | some (b, []) => some (a, b)
      | _ => none
    | _ => none
  | none => none

/-- Strip leading and trailing whitespace from a character list. -/
def trimChars (cs : List Char) : List Char :=
  ((cs.dropWhile Char.isWhitespace).reverse.dropWhile Char.isWhitespace).reverse

/-- Modelled from the spec: `JobDatabase.parse_salary` (§4.1).  Null, empty
and whitespace-only input give `(none, none)`; a range gives both bounds; a
single amount duplicates the bound; anything else fails closed to
`(none, none)`. -/
def parse_salary : Option String → Option Nat × Option Nat
  | none => (none, none)
  | some t =>
    let cs := trimChars t.data
    match parseRange cs with
    | some (a, b) => (some a, some b)
    | none =>
      match parseSingle cs with
      | some v => (some v, some v)
      | none => (none, none)

/-- A salary string is in recognized form when it parses as a range or as a
single amount after trimming. -/
def recognizedSalary (t : String) : Bool :=
  (parseRange (trimChars t.data)).isSome || (parseSingle (trimChars t.data)).isSome


/-- Modelled from the spec: the canonical `JobRecord` dataclass of §3 /
`lib.job_database.JobRecord`; all descriptive fields optional with explicit
nulls, `status` defaulting to `"active"` and `source` to `"linkedin"`
(pinned by `test_job_record_creation_defaults`). -/
structure JobRecord where
  job_id : String
  title : Option String := none
  company : Option String := none
  work_type : Option String := none
  location : Option String := none
  salary : Option String := none
  benefits : Option String := none
  url : Option String := none
  description : Option String := none
  status : String := "active"
  source : String := "linkedin"
  deriving DecidableEq

/-- Modelled from the spec: a materialized row of the `jobs` table (§3, §6):
the canonical fields plus the derived salary columns and the bookkeeping
timestamps. -/
structure StoredJob where
  job_id : String
  title : Option String
  company : Option String
  work_type : Option String
  location : Option String
  salary : Option String
  benefits : Option String
  url : Option String
  description : Option String
  status : String
  source : String
  salary_min_yearly : Option Nat
  salary_max_yearly : Option Nat
  first_seen : Nat
  last_seen : Nat
  created_at : Nat
  updated_at : Nat
  deriving DecidableEq

/-- Modelled from the spec: the `ScrapeSession` dataclass of §3 with the
defaults pinned by `test_scrape_session_creation_minimal`. -/
structure ScrapeSession where
  timestamp : Nat
  total_jobs_found : Nat
  new_jobs_added : Nat := 0
  source : String := "linkedin"
  search_criteria : Option String := none
  notes : Option String := none
  deriving DecidableEq

/-- Modelled from the spec: the persisted state of §6 — the `jobs`
collection, the append-only `scrape_sessions` collection and the
`job_session_mapping` association rows `(job_id, session_id, position)`. -/
structure Store where
  jobs : List StoredJob
  sessions : List ScrapeSession
  mappings : List (String × Nat × Option Nat)
  deriving DecidableEq

def emptyStore : Store := ⟨[], [], []⟩

/-- Modelled from the spec: the fresh row written on first upsert (§4.3):
all fields from the record, derived salary columns computed by the salary
parser, `first_seen = last_seen = now` and bookkeeping timestamps set. -/
def newRow (r : JobRecord) (now : Nat) : StoredJob :=
  { job_id := r.job_id, title := r.title, company := r.company
    work_type := r.work_type, location := r.location, salary := r.salary
    benefits := r.benefits, url := r.url, description := r.description
    status := r.status, source := r.source
    salary_min_yearly := (parse_salary r.salary).1
    salary_max_yearly := (parse_salary r.salary).2
    first_seen := now, last_seen := now, created_at := now, updated_at := now }

/-- Modelled from the spec: the row written when an upsert finds a changed
existing record (§4.3): new field values, recomputed derived columns,
`last_seen = updated_at = now`, while `first_seen` and `created_at` are kept
from the stored row. -/
def updatedRow (r : JobRecord) (o : StoredJob) (now : Nat) : StoredJob :=
  { newRow r now with first_seen := o.first_seen, created_at := o.created_at }

/-- Modelled from the spec: the field diff of §4.3 — an upsert compares
every normalized field (title, company, work_type, location, salary,
benefits, url, description, status, source) against the stored value. -/
def jobChanged (r : JobRecord) (o : StoredJob) : Bool :=
  !(r.title == o.title && r.company == o.company && r.work_type == o.work_type &&
    r.location == o.location && r.salary == o.salary && r.benefits == o.benefits &&
    r.url == o.url && r.description == o.description && r.status == o.status &&
    r.source == o.source)

/-- Modelled from the spec: `JobDatabase.get_job` — point lookup by
`job_id`, `none` when absent (§4.3). -/
def get_job (s : Store) (id : String) : Option StoredJob :=
  s.jobs.find? (fun j => j.job_id == id)

/-- Append a `JobSessionMapping` row when a session id is supplied; done
regardless of the insert/update/no-op outcome (§4.3). -/
def addMapping (s : Store) (id : String) (sid : Option Nat) (pos : Option Nat) : Store :=
  match sid with
  | none => s
  | some k => { s with mappings := (id, k, pos) :: s.mappings }

/-- Modelled from the spec: `JobDatabase.upsert_job` (§4.3).  Validation
error on empty `job_id`; insert with fresh timestamps when the id is new;
full-replace update with recomputed derived columns when any compared field
differs; otherwise a touch updating only `last_seen`. -/
def upsert_job (s : Store) (r : JobRecord) (sid : Option Nat) (pos : Option Nat)
    (now : Nat) : Except String ((Bool × Bool) × Store) :=
  if r.job_id = "" then .error "validation: job_id is required"
  else
    match get_job s r.job_id with
    | none =>
      .ok ((true, false),
        addMapping { s with jobs := newRow r now :: s.jobs } r.job_id sid pos)
    | some old =>
      if jobChanged r old then
        .ok ((false, true),
          addMapping
            { s with
              jobs := s.jobs.map
                (fun o => if o.job_id = r.job_id then updatedRow r o now else o) }
            r.job_id sid pos)
      else
        .ok ((false, false),
          addMapping
            { s with
              jobs := s.jobs.map
                (fun o => if o.job_id = r.job_id then { o with last_seen := now } else o) }
            r.job_id sid pos)

/-- Modelled from the spec: `JobDatabase.create_scrape_session` (§4.4) —
append-only insert returning a store-assigned monotonic id. -/
def create_scrape_session (s : Store) (sess : ScrapeSession) : Nat × Store :=
  (s.sessions.length + 1, { s with sessions := sess :: s.sessions })

/-- Modelled from the spec: `JobDatabase.mark_jobs_removed` (§4.3): every
record with `status = "active"` whose id is not in `active_ids` transitions
to `"removed"`; non-active records untouched; returns the number actually
transitioned. -/
def mark_jobs_removed (s : Store) (activeIds : List String) : Nat × Store :=
  ((s.jobs.filter
      (fun j => j.status == "active" && !(activeIds.contains j.job_id))).length,
   { s with
     jobs := s.jobs.map
       (fun j =>
         if j.status == "active" && !(activeIds.contains j.job_id) then
           { j with status := "removed" }
         else j) })

/-- Case-insensitive character-prefix test. -/
def leadsCI : List Char → List Char → Bool
  | [], _ => true
  | _ :: _, [] => false
  | a :: as, b :: bs => (a.toLower == b.toLower) && leadsCI as bs

/-- Case-insensitive substring test (models SQL `LIKE '%…%'` with
`LOWER`, and approximates an FTS token match). -/
def containsCI (n : List Char) : List Char → Bool
  | [] => leadsCI n []
  | c :: hs => leadsCI n (c :: hs) || containsCI n hs

/-- Filter on an optional text field by case-insensitive substring; a null
field never matches a present filter (SQL `LIKE` on NULL). -/
def optFieldOk (f : Option String) (field : Option String) : Bool :=
  match f with
  | none => true
  | some needle =>
    match field with
    | none => false
    | some hay => containsCI needle.data hay.data

/-- Status filter of §4.3: empty string is the "no status filter" sentinel,
otherwise exact match. -/
def statusOk (st : String) (j : StoredJob) : Bool :=
  st == "" || j.status == st

/-- Work-type filter: exact match on the stored value (§4.3). -/
def workTypeOk (f : Option String) (j : StoredJob) : Bool :=
  match f with
  | none => true
  | some wt => j.work_type == some wt

/-- Modelled from the spec pinned by `test_search_jobs_by_salary_range`:
`min_salary` compares against the derived `salary_min_yearly`
(`search_jobs(min_salary=120000)` returns exactly the two fixture records
whose lower bound is ≥ 120000); a record with null derived salary never
matches. -/
def minSalaryOk (f : Option Nat) (j : StoredJob) : Bool :=
  match f with
  | none => true
  | some m =>
    match j.salary_min_yearly with
    | none => false
    | some v => decide (m ≤ v)

/-- `max_salary` compares against the derived `salary_max_yearly` (pinned by
the same test: `search_jobs(max_salary=110000)` returns the two fixture
records whose upper bound is ≤ 110000). -/
def maxSalaryOk (f : Option Nat) (j : StoredJob) : Bool :=
  match f with
  | none => true
  | some m =>
    match j.salary_max_yearly with
    | none => false
    | some v => decide (v ≤ m)

/-- Full-text query over title, company and description (§4.3), modelled as
a case-insensitive substring match on the indexed fields (the index is
maintained transactionally, so matching directly on the row is exact). -/
def queryOk (f : Option String) (j : StoredJob) : Bool :=
  match f with
  | none => true
  | some needle =>
    containsCI needle.data (j.title.getD "").data ||
    containsCI needle.data (j.company.getD "").data ||
    containsCI needle.data (j.description.getD "").data

/-- AND-composition of all `search_jobs` filters (§4.3). -/
def matchesFilters (q c l w : Option String) (st : String) (minS maxS : Option Nat)
    (j : StoredJob) : Bool :=
  statusOk st j && optFieldOk c j.company && optFieldOk l j.location &&
    workTypeOk w j && minSalaryOk minS j && maxSalaryOk maxS j && queryOk q j

/-- Insert into a list kept sorted by `last_seen` descending. -/
def insertByLS (j : StoredJob) : List StoredJob → List StoredJob
  | [] => [j]
  | k :: ks => if k.last_seen ≤ j.last_seen then j :: k :: ks else k :: insertByLS j ks

/-- Sort by `last_seen` descending (§4.3 result ordering). -/
def sortByLastSeen : List StoredJob → List StoredJob
  | [] => []
  | j :: js => insertByLS j (sortByLastSeen js)

/-- Modelled from the spec: `JobDatabase.search_jobs` (§4.3): AND-composed
filters, results ordered by `last_seen` descending, capped at `lim`
(`lim = 0` gives the empty sequence). -/
def search_jobs (s : Store) (q c l w : Option String) (st : String)
    (minS maxS : Option Nat) (lim : Nat) : List StoredJob :=
  (sortByLastSeen (s.jobs.filter (matchesFilters q c l w st minS maxS))).take lim

/-- Modelled from the spec: the store states reachable through the public
mutating operations (§4.3–§4.4), starting from a fresh store. -/
inductive Reachable : Store → Prop
  | empty : Reachable emptyStore
  | upsert {s s' : Store} {r : JobRecord} {sid pos : Option Nat} {t : Nat}
      {res : Bool × Bool} (h : Reachable s)
      (hop : upsert_job s r sid pos t = .ok (res, s')) : Reachable s'
  | mark {s s' : Store} {ids : List String} {n : Nat} (h : Reachable s)
      (hop : mark_jobs_removed s ids = (n, s')) : Reachable s'
  | session {s s' : Store} {sess : ScrapeSession} {k : Nat} (h : Reachable s)
      (hop : create_scrape_session s sess = (k, s')) : Reachable s'

/-- A JSON value in the record materialization: a string or an explicit
null (the only shapes the schema uses for the canonical fields). -/
inductive JVal where
  | jstr (s : String)
  | jnull
  deriving DecidableEq

/-- A JSON object as an ordered association list. -/
def JDict := List (String × JVal)

/-- Optional field to JSON: explicit null when unset. -/
def optJ : Option String → JVal
  | none => .jnull
  | some s => .jstr s

/-- JSON value back to an optional string. -/
def decodeJ : JVal → Option String
  | .jstr s => some s
  | .jnull => none

/-- Key lookup in a JSON object. -/
def jlookup (d : JDict) (k : String) : Option JVal :=
  (d.find? (fun p => p.1 == k)).map (fun p => p.2)

/-- The eleven canonical keys of the record's JSON materialization, pinned
by `test_job_record_to_json_minimal`. -/
def canonicalKeys : List String :=
  ["job_id", "title", "company", "work_type", "location", "salary",
   "benefits", "url", "description", "status", "source"]

/-- Modelled from the spec: `JobRecord.to_json_dict` — emits all eleven
canonical keys, with explicit nulls for unset optional fields (pinned by
`test_job_record_to_json_full` / `test_job_record_to_json_minimal`). -/
def JobRecord.to_json_dict (r : JobRecord) : JDict :=
  [("job_id", .jstr r.job_id), ("title", optJ r.title),
   ("company", optJ r.company), ("work_type", optJ r.work_type),
   ("location", optJ r.location), ("salary", optJ r.salary),
   ("benefits", optJ r.benefits), ("url", optJ r.url),
   ("description", optJ r.description), ("status", .jstr r.status),
   ("source", .jstr r.source)]

/-- Read an optional field: missing key or explicit null become `none`. -/
def jgetOpt (d : JDict) (k : String) : Option String :=
  (jlookup d k).bind decodeJ

/-- Read a string field with a default for a missing/null key. -/
def jgetD (d : JDict) (k fallback : String) : String :=
  ((jlookup d k).bind decodeJ).getD fallback

/-- Modelled from the spec: `JobRecord.from_json_dict` — missing optional
fields become `none`, `status` defaults to `"active"` and `source` to
`"linkedin"` when absent (pinned by
`test_job_record_from_json_missing_fields`). -/
def JobRecord.from_json_dict (d : JDict) : JobRecord :=
  { job_id := jgetD d "job_id" ""
    title := jgetOpt d "title", company := jgetOpt d "company"
    work_type := jgetOpt d "work_type", location := jgetOpt d "location"
    salary := jgetOpt d "salary", benefits := jgetOpt d "benefits"
    url := jgetOpt d "url", description := jgetOpt d "description"
    status := jgetD d "status" "active", source := jgetD d "source" "linkedin" }

/-- The store invariant behind the derived-column claims: every stored
row's derived salary columns are exactly the parser's output on its raw
salary field. -/
def derivedOk (s : Store) : Prop :=
  ∀ j ∈ s.jobs, (j.salary_min_yearly, j.salary_max_yearly) = parse_salary j.salary


/-- A salary text that parses as a range whose first amount exceeds the
second (the case §4.1 explicitly leaves uncorrected). -/
def reversedRange (so : Option String) : Bool :=
  match so with
  | none => false
  | some t =>
    match parseRange (trimChars t.data) with
    | some (a, b) => decide (b < a)
    | none => false

/-- Null or unrecognized salary text (the "null or unparseable" side of the
§3 invariant). -/
def salaryNullOrUnparseable : Option String → Bool
  | none => true
  | some t => !recognizedSalary t

/-- Remove every comma from a string. -/
def stripCommas (t : String) : String :=
  ⟨t.data.filter (fun c => c ≠ ',')⟩

/-- Modelled from the spec's words for comparison (claim C3's reading of
§4.1): the comma is stripped from the number before parsing and the parsed
integer is multiplied by 1000 — i.e. the comma-stripped string is parsed by
the same `$<number>K/yr` grammar. -/
def parse_salary_commaStripped (t : String) : Option Nat × Option Nat :=
  parse_salary (some (stripCommas t))

-- Concrete records and stores used by witnesses and counterexamples.

def rEx : JobRecord :=
  { job_id := "ex1", title := some "Python Developer",
    salary := some "$120K/yr - $150K/yr" }

def sEx : Store := { jobs := [newRow rEx 0], sessions := [], mappings := [] }

def rRev : JobRecord := { job_id := "rev1", salary := some "$150K/yr - $120K/yr" }

def sRev : Store := { jobs := [newRow rRev 0], sessions := [], mappings := [] }

def rMid : JobRecord :=
  { job_id := "mid1", salary := some "$110K/yr - $140K/yr" }

def sMid : Store := { jobs := [newRow rMid 0], sessions := [], mappings := [] }

def rJr : JobRecord := { job_id := "u1", title := some "Junior Developer" }

def rSr : JobRecord := { job_id := "u1", title := some "Senior Developer" }

def sJr : Store := { jobs := [newRow rJr 0], sessions := [], mappings := [] }

def rowA : StoredJob := newRow { job_id := "A" } 0

def rowB : StoredJob := newRow { job_id := "B" } 0

def rowC : StoredJob := newRow { job_id := "C" } 0

-- ===== Theorems =====

-- Evaluation checks of the parser against the repository's pinned test
-- vectors (`test_parse_salary_*`).
example : parse_salary (some "$100K/yr") = (some 100000, some 100000) := by decide
example : parse_salary (some "$120K/yr - $150K/yr") = (some 120000, some 150000) := by decide
example : parse_salary (some "$100k/yr-$150k/yr") = (some 100000, some 150000) := by decide
example : parse_salary (some "Competitive salary") = (none, none) := by decide
example : parse_salary (some "$100/hour") = (none, none) := by decide
example : parse_salary (some "$100,000K/yr") = (some 100000, some 100000) := by decide
example : parse_salary (some " $100K/yr ") = (some 100000, some 100000) := by decide
example : parse_salary (some "$100K/YR") = (some 100000, some 100000) := by decide
example : parse_salary (some "$100K/yr  -  $150K/yr") = (some 100000, some 150000) := by decide
example : parse_salary (some "") = (none, none) := by decide
example : parse_salary (some "   ") = (none, none) := by decide
example : parse_salary (some "$100K") = (none, none) := by decide
example : parse_salary (some "100K") = (none, none) := by decide
example : parse_salary (some "$XYZ/yr") = (none, none) := by decide
example : parse_salary (some "$/yr") = (none, none) := by decide
example : parse_salary (some "$100K/yr - competitive") = (none, none) := by decide
example : parse_salary (some "DOE - $150K/yr") = (none, none) := by decide
example : parse_salary (some "$1000K/yr") = (some 1000000, some 1000000) := by decide

theorem decodeJ_optJ (o : Option String) : decodeJ (optJ o) = o := by
  cases o <;> rfl


theorem decodeJ_jstr (s : String) : decodeJ (.jstr s) = some s := rfl

theorem jobs_addMapping (s : Store) (id : String) (sid pos : Option Nat) :
    (addMapping s id sid pos).jobs = s.jobs := by
  cases sid <;> rfl


theorem derivedOk_of_reachable {s : Store} (h : Reachable s) : derivedOk s := by
  induction h with
  | empty => intro j hj; simp [emptyStore] at hj
  | @upsert s s' r sid pos t res _ hop ih =>
    unfold upsert_job at hop
    split at hop
    · exact absurd hop (by simp)
    · split at hop
      · injection hop with hop
        injection hop with _ hs'
        intro j hj
        rw [← hs', jobs_addMapping] at hj
        rcases List.mem_cons.mp hj with h1 | h1
        · subst h1; rfl
        · exact ih j h1
      · split at hop
        · injection hop with hop
          injection hop with _ hs'
          intro j hj
          rw [← hs', jobs_addMapping] at hj
          rcases List.mem_map.mp hj with ⟨o, ho, rfl⟩
          split
          · rfl
          · exact ih o ho
        · injection hop with hop
          injection hop with _ hs'
          intro j hj
          rw [← hs', jobs_addMapping] at hj
          rcases List.mem_map.mp hj with ⟨o, ho, rfl⟩
          split
          · exact ih o ho
          · exact ih o ho
  | @mark s s' ids n _ hop ih =>
    unfold mark_jobs_removed at hop
    injection hop with _ hs'
    intro j hj
    rw [← hs'] at hj
    rcases List.mem_map.mp hj with ⟨o, ho, rfl⟩
    split
    · exact ih o ho
    · exact ih o ho
  | @session s s' sess k _ hop ih =>
    unfold create_scrape_session at hop
    injection hop with _ hs'
    intro j hj
    rw [← hs'] at hj
    exact ih j hj

theorem parse_salary_shape (so : Option String) :
    parse_salary so = (none, none) ∨ ∃ a b, parse_salary so = (some a, some b) := by
  cases so with
  | none => exact Or.inl rfl
  | some t =>
    unfold parse_salary
    cases hR : parseRange (trimChars t.data) with
    | some ab =>
      exact Or.inr ⟨ab.1, ab.2, by simp [hR]⟩
    | none =>
      cases hS : parseSingle (trimChars t.data) with
      | some v => exact Or.inr ⟨v, v, by simp [hR, hS]⟩
      | none => exact Or.inl (by simp [hR, hS])

theorem parse_salary_eq_none_iff (so : Option String) :
    parse_salary so = (none, none) ↔ salaryNullOrUnparseable so = true := by
  cases so with
  | none => simp [parse_salary, salaryNullOrUnparseable]
  | some t =>
    unfold parse_salary salaryNullOrUnparseable recognizedSalary
    cases hR : parseRange (trimChars t.data) with
    | some ab => simp [hR]
    | none =>
      cases hS : parseSingle (trimChars t.data) <;> simp [hR, hS]

theorem parse_salary_ordered (so : Option String) (a b : Nat)
    (hp : parse_salary so = (some a, some b)) (hrev : reversedRange so = false) :
    a ≤ b := by
  cases so with
  | none => simp [parse_salary] at hp
  | some t =>
    cases hR : parseRange (trimChars t.data) with
    | some ab =>
      obtain ⟨x, y⟩ := ab
      simp [parse_salary, hR] at hp
      simp [reversedRange, hR] at hrev
      obtain ⟨rfl, rfl⟩ := hp
      omega
    | none =>
      cases hS : parseSingle (trimChars t.data) with
      | some v =>
        simp [parse_salary, hR, hS] at hp
        obtain ⟨rfl, rfl⟩ := hp
        omega
      | none => simp [parse_salary, hR, hS] at hp

theorem find?_map_update_self (l : List StoredJob) (x : String)
    (g : StoredJob → StoredJob) (hg : ∀ o, o.job_id = x → (g o).job_id = x) :
    (l.map (fun o => if o.job_id = x then g o else o)).find? (fun j => j.job_id == x) =
      (l.find? (fun j => j.job_id == x)).map g := by
  induction l with
  | nil => rfl
  | cons o os ih =>
    by_cases h : o.job_id = x
    · simp [List.find?_cons, h, hg o h]
    · simp [List.find?_cons, h, ih]

theorem find?_map_update_other (l : List StoredJob) (x y : String) (hxy : y ≠ x)
    (g : StoredJob → StoredJob) (hg : ∀ o, o.job_id = x → (g o).job_id = x) :
    (l.map (fun o => if o.job_id = x then g o else o)).find? (fun j => j.job_id == y) =
      l.find? (fun j => j.job_id == y) := by
  induction l with
  | nil => rfl
  | cons o os ih =>
    by_cases h : o.job_id = x
    · have h2 : ((g o).job_id == y) = false :=
        beq_eq_false_iff_ne.mpr (by rw [hg o h]; exact fun hh => hxy hh.symm)
      have h4 : (o.job_id == y) = false :=
        beq_eq_false_iff_ne.mpr (by rw [h]; exact fun hh => hxy hh.symm)
      have hmap : ((o :: os).map (fun o => if o.job_id = x then g o else o)) =
          g o :: os.map (fun o => if o.job_id = x then g o else o) := by
        simp [h]
      rw [hmap, List.find?_cons, List.find?_cons, h2, h4]
      exact ih
    · simp [List.find?_cons, h, ih]

theorem mem_insertByLS (j a : StoredJob) (l : List StoredJob) :
    a ∈ insertByLS j l ↔ a = j ∨ a ∈ l := by
  induction l with
  | nil => simp [insertByLS]
  | cons k ks ih =>
    by_cases h : k.last_seen ≤ j.last_seen
    · simp [insertByLS, h]
    · simp [insertByLS, h, ih]
      tauto

theorem length_insertByLS (j : StoredJob) (l : List StoredJob) :
    (insertByLS j l).length = l.length + 1 := by
  induction l with
  | nil => rfl
  | cons k ks ih =>
    by_cases h : k.last_seen ≤ j.last_seen <;> simp [insertByLS, h, ih]

theorem mem_sortByLastSeen (a : StoredJob) (l : List StoredJob) :
    a ∈ sortByLastSeen l ↔ a ∈ l := by
  induction l with
  | nil => simp [sortByLastSeen]
  | cons k ks ih => simp [sortByLastSeen, mem_insertByLS, ih]

theorem length_sortByLastSeen (l : List StoredJob) :
    (sortByLastSeen l).length = l.length := by
  induction l with
  | nil => rfl
  | cons k ks ih => simp [sortByLastSeen, length_insertByLS, ih]


theorem reachable_sEx : Reachable sEx :=
  @Reachable.upsert emptyStore sEx rEx none none 0 (true, false) Reachable.empty rfl

theorem reachable_sRev : Reachable sRev :=
  @Reachable.upsert emptyStore sRev rRev none none 0 (true, false) Reachable.empty rfl

theorem reachable_sMid : Reachable sMid :=
  @Reachable.upsert emptyStore sMid rMid none none 0 (true, false) Reachable.empty rfl

/-- C1: in every reachable store state, every stored record's derived
columns `salary_min_yearly`/`salary_max_yearly` equal `parse_salary`
applied to its `salary` field. -/
theorem derived_columns_consistent (s : Store) (h : Reachable s) (j : StoredJob)
    (hj : j ∈ s.jobs) :
    (j.salary_min_yearly, j.salary_max_yearly) = parse_salary j.salary :=
  derivedOk_of_reachable h j hj

theorem derived_columns_consistent_witness :
    ((newRow rEx 0).salary_min_yearly, (newRow rEx 0).salary_max_yearly) =
      parse_salary (newRow rEx 0).salary :=
  derived_columns_consistent sEx reachable_sEx (newRow rEx 0) (by simp [sEx])

/-- C8: `parse_salary` is total with both bounds present or both absent,
and every unrecognized input yields `(none, none)` (fails closed). -/
theorem parse_salary_total (so : Option String) :
    ((parse_salary so = (none, none)) ∨ ∃ a b, parse_salary so = (some a, some b)) ∧
    (∀ t, so = some t → recognizedSalary t = false → parse_salary so = (none, none)) ∧
    parse_salary none = (none, none) := by
  refine ⟨parse_salary_shape so, ?_, rfl⟩
  rintro t rfl hrec
  rw [parse_salary_eq_none_iff]
  simp [salaryNullOrUnparseable, hrec]

theorem parse_salary_total_witness :
    parse_salary (some "Competitive salary") = (none, none) :=
  (parse_salary_total (some "Competitive salary")).2.1 "Competitive salary" rfl (by decide)

/-- C9: the five pinned example inputs of §8. -/
theorem parse_salary_examples :
    parse_salary (some "$100K/yr") = (some 100000, some 100000) ∧
    parse_salary (some "$120K/yr - $150K/yr") = (some 120000, some 150000) ∧
    parse_salary (some "$100k/yr-$150k/yr") = (some 100000, some 150000) ∧
    parse_salary (some "Competitive salary") = (none, none) ∧
    parse_salary (some "$100/hour") = (none, none) :=
  ⟨by decide, by decide, by decide, by decide, by decide⟩

/-- C4 counterexample: the reachable store holding the reversed range
`"$150K/yr - $120K/yr"` has a record with `salary_min_yearly` strictly
above `salary_max_yearly`, refuting the unconditional ordering invariant. -/
theorem salary_bounds_counterexample :
    Reachable sRev ∧ newRow rRev 0 ∈ sRev.jobs ∧
    (newRow rRev 0).salary_min_yearly = some 150000 ∧
    (newRow rRev 0).salary_max_yearly = some 120000 ∧
    ¬(150000 ≤ (120000 : Nat)) :=
  ⟨reachable_sRev, by simp [sRev], by decide, by decide, by decide⟩

/-- C4 (amended): for every stored record of a reachable store, the derived
bounds are both null or both non-null; both null exactly when the salary is
null or unparseable; and `salary_min_yearly ≤ salary_max_yearly` holds
whenever the salary is not a reversed range (a single amount or an ordered
range), the reversed case being the one §4.1 leaves uncorrected. -/
theorem salary_bounds_invariant (s : Store) (h : Reachable s) (j : StoredJob)
    (hj : j ∈ s.jobs) :
    (j.salary_min_yearly = none ↔ j.salary_max_yearly = none) ∧
    ((j.salary_min_yearly = none ∧ j.salary_max_yearly = none) ↔
      salaryNullOrUnparseable j.salary = true) ∧
    (∀ a b, j.salary_min_yearly = some a → j.salary_max_yearly = some b →
      reversedRange j.salary = false → a ≤ b) := by
  have hd := derivedOk_of_reachable h j hj
  have hmin : j.salary_min_yearly = (parse_salary j.salary).1 := by rw [← hd]
  have hmax : j.salary_max_yearly = (parse_salary j.salary).2 := by rw [← hd]
  refine ⟨?_, ?_, ?_⟩
  · rcases parse_salary_shape j.salary with hs | ⟨a, b, hs⟩ <;>
      simp [hmin, hmax, hs]
  · rcases parse_salary_shape j.salary with hs | ⟨a, b, hs⟩
    · rw [hmin, hmax, hs]
      simp
      exact (parse_salary_eq_none_iff j.salary).mp hs
    · rw [hmin, hmax, hs]
      simp
      cases hX : salaryNullOrUnparseable j.salary
      · rfl
      · have hc := (parse_salary_eq_none_iff j.salary).mpr hX
        rw [hs] at hc
        simp at hc
  · intro a b ha hb hrev
    refine parse_salary_ordered j.salary a b ?_ hrev
    rw [← hd, ha, hb]

theorem salary_bounds_invariant_witness :
    (((newRow rEx 0).salary_min_yearly = none ∧ (newRow rEx 0).salary_max_yearly = none) ↔
      salaryNullOrUnparseable (newRow rEx 0).salary = true) ∧
    (120000 : Nat) ≤ 150000 :=
  ⟨(salary_bounds_invariant sEx reachable_sEx (newRow rEx 0) (by simp [sEx])).2.1,
   (salary_bounds_invariant sEx reachable_sEx (newRow rEx 0) (by simp [sEx])).2.2
     120000 150000 (by decide) (by decide) (by decide)⟩

theorem minSalaryOk_some_iff (m : Nat) (j : StoredJob) :
    minSalaryOk (some m) j = true ↔ ∃ v, j.salary_min_yearly = some v ∧ m ≤ v := by
  unfold minSalaryOk
  cases h : j.salary_min_yearly <;> simp [h]

/-- C2 counterexample: in a reachable store holding a record with bounds
(110000, 140000), `search_jobs` with `min_salary = 120000` returns nothing,
although the record is active, passes every other filter, and has
`salary_max_yearly = 140000 ≥ 120000` — so the filter does not compare
`salary_max_yearly` against the bound. -/
theorem search_min_salary_counterexample :
    Reachable sMid ∧
    get_job sMid "mid1" = some (newRow rMid 0) ∧
    (newRow rMid 0).status = "active" ∧
    (newRow rMid 0).salary_max_yearly = some 140000 ∧
    (120000 : Nat) ≤ 140000 ∧
    search_jobs sMid none none none none "active" none none 100 = [newRow rMid 0] ∧
    search_jobs sMid none none none none "active" (some 120000) none 100 = [] :=
  ⟨reachable_sMid, rfl, rfl, by decide, by decide, by decide, by decide⟩

/-- C2 (amended): composed with any other filters under AND semantics,
`min_salary = m` selects exactly the records passing the other filters
whose `salary_min_yearly` is non-null and at least `m`; a record with null
derived salary never matches the bound. -/
theorem search_min_salary_filter (s : Store) (q c l w : Option String) (st : String)
    (m : Nat) (mx : Option Nat) (j : StoredJob) :
    j ∈ search_jobs s q c l w st (some m) mx s.jobs.length ↔
      (j ∈ search_jobs s q c l w st none mx s.jobs.length ∧
        ∃ v, j.salary_min_yearly = some v ∧ m ≤ v) := by
  have hlen : ∀ (minS : Option Nat),
      (sortByLastSeen (s.jobs.filter (matchesFilters q c l w st minS mx))).length ≤
        s.jobs.length := by
    intro minS
    rw [length_sortByLastSeen]
    exact List.length_filter_le _ _
  have hsplit : matchesFilters q c l w st (some m) mx j =
      (matchesFilters q c l w st none mx j && minSalaryOk (some m) j) := by
    unfold matchesFilters
    rw [show minSalaryOk none j = true from rfl]
    generalize statusOk st j = b1
    generalize optFieldOk c j.company = b2
    generalize optFieldOk l j.location = b3
    generalize workTypeOk w j = b4
    generalize minSalaryOk (some m) j = bm
    generalize maxSalaryOk mx j = b6
    generalize queryOk q j = b7
    cases b1 <;> cases b2 <;> cases b3 <;> cases b4 <;> cases bm <;> cases b6 <;>
      cases b7 <;> rfl
  rw [search_jobs, search_jobs, List.take_of_length_le (hlen _),
    List.take_of_length_le (hlen _), mem_sortByLastSeen, mem_sortByLastSeen,
    List.mem_filter, List.mem_filter, hsplit, Bool.and_eq_true, minSalaryOk_some_iff]
  tauto

theorem get_job_insert_self (s : Store) (r : JobRecord) (t : Nat) :
    get_job { s with jobs := newRow r t :: s.jobs } r.job_id = some (newRow r t) := by
  simp [get_job, List.find?_cons, newRow]

theorem jobChanged_newRow (r : JobRecord) (t : Nat) :
    jobChanged r (newRow r t) = false := by
  simp [jobChanged, newRow]

/-- C5: upserting a canonical record into a store that lacks its id returns
`(true, false)`; immediately upserting the identical record again returns
`(false, false)` and changes only `last_seen` — every other stored field,
`first_seen` and the derived columns included, and every other stored
record, is unchanged. -/
theorem upsert_twice_touches_only_last_seen (s : Store) (r : JobRecord) (t1 t2 : Nat)
    (hid : r.job_id ≠ "") (habs : get_job s r.job_id = none) :
    ∃ s1 s2,
      upsert_job s r none none t1 = .ok ((true, false), s1) ∧
      upsert_job s1 r none none t2 = .ok ((false, false), s2) ∧
      get_job s1 r.job_id = some (newRow r t1) ∧
      get_job s2 r.job_id = some { newRow r t1 with last_seen := t2 } ∧
      ∀ id, id ≠ r.job_id → get_job s2 id = get_job s1 id := by
  refine ⟨{ s with jobs := newRow r t1 :: s.jobs },
    { s with
      jobs := (newRow r t1 :: s.jobs).map
        (fun o => if o.job_id = r.job_id then { o with last_seen := t2 } else o) },
    ?_, ?_, ?_, ?_, ?_⟩
  · simp [upsert_job, hid, habs, addMapping]
  · simp [upsert_job, hid, get_job_insert_self, jobChanged_newRow, addMapping]
  · exact get_job_insert_self s r t1
  · have h1 : List.find? (fun j => j.job_id == r.job_id) (newRow r t1 :: s.jobs) =
        some (newRow r t1) := by
      have := get_job_insert_self s r t1
      simpa [get_job] using this
    simp only [get_job]
    rw [find?_map_update_self (newRow r t1 :: s.jobs) r.job_id
      (fun o => { o with last_seen := t2 }) (fun o ho => ho), h1]
    rfl
  · intro id hne
    simp only [get_job]
    exact find?_map_update_other (newRow r t1 :: s.jobs) r.job_id id hne
      (fun o => { o with last_seen := t2 }) (fun o ho => ho)

theorem upsert_twice_touches_only_last_seen_witness :
    ∃ s1 s2,
      upsert_job emptyStore rEx none none 0 = .ok ((true, false), s1) ∧
      upsert_job s1 rEx none none 1 = .ok ((false, false), s2) ∧
      get_job s1 rEx.job_id = some (newRow rEx 0) ∧
      get_job s2 rEx.job_id = some { newRow rEx 0 with last_seen := 1 } ∧
      ∀ id, id ≠ rEx.job_id → get_job s2 id = get_job s1 id :=
  upsert_twice_touches_only_last_seen emptyStore rEx 0 1 (by decide) rfl

/-- C6: a second upsert of the same `job_id` differing in at least one
compared field returns `(false, true)`; afterwards the lookup reflects the
new field values with recomputed derived columns, `first_seen` is unchanged
from creation, and `last_seen` has advanced. -/
theorem upsert_detects_field_change (s : Store) (r : JobRecord) (old : StoredJob)
    (t : Nat) (hid : r.job_id ≠ "") (hfound : get_job s r.job_id = some old)
    (hch : jobChanged r old = true) (hlt : old.last_seen < t) :
    ∃ s', upsert_job s r none none t = .ok ((false, true), s') ∧
      get_job s' r.job_id = some (updatedRow r old t) ∧
      (updatedRow r old t).title = r.title ∧
      (updatedRow r old t).company = r.company ∧
      (updatedRow r old t).salary = r.salary ∧
      ((updatedRow r old t).salary_min_yearly, (updatedRow r old t).salary_max_yearly) =
        parse_salary r.salary ∧
      (updatedRow r old t).first_seen = old.first_seen ∧
      old.last_seen < (updatedRow r old t).last_seen := by
  refine ⟨{ s with
      jobs := s.jobs.map (fun o => if o.job_id = r.job_id then updatedRow r o t else o) },
    ?_, ?_, rfl, rfl, rfl, rfl, rfl, hlt⟩
  · simp [upsert_job, hid, hfound, hch, addMapping]
  · have h1 : List.find? (fun j => j.job_id == r.job_id) s.jobs = some old := by
      simpa [get_job] using hfound
    simp only [get_job]
    rw [find?_map_update_self s.jobs r.job_id (fun o => updatedRow r o t)
      (fun o ho => rfl), h1]
    rfl

theorem upsert_detects_field_change_witness :
    ∃ s', upsert_job sJr rSr none none 1 = .ok ((false, true), s') ∧
      get_job s' rSr.job_id = some (updatedRow rSr (newRow rJr 0) 1) ∧
      (updatedRow rSr (newRow rJr 0) 1).title = rSr.title ∧
      (updatedRow rSr (newRow rJr 0) 1).company = rSr.company ∧
      (updatedRow rSr (newRow rJr 0) 1).salary = rSr.salary ∧
      ((updatedRow rSr (newRow rJr 0) 1).salary_min_yearly,
        (updatedRow rSr (newRow rJr 0) 1).salary_max_yearly) = parse_salary rSr.salary ∧
      (updatedRow rSr (newRow rJr 0) 1).first_seen = (newRow rJr 0).first_seen ∧
      (newRow rJr 0).last_seen < (updatedRow rSr (newRow rJr 0) 1).last_seen :=
  upsert_detects_field_change sJr rSr (newRow rJr 0) 1 (by decide) (by decide)
    (by decide) (by decide)

/-- C7: in a store whose records are exactly A, B, C, all `"active"`,
`mark_jobs_removed ["A"]` returns 2 and transitions B and C to `"removed"`
while leaving A unchanged; calling it again returns 0 because non-active
records are untouched and not recounted. -/
theorem mark_removed_lifecycle (a b c : StoredJob)
    (ha1 : a.job_id = "A") (ha2 : a.status = "active")
    (hb1 : b.job_id = "B") (hb2 : b.status = "active")
    (hc1 : c.job_id = "C") (hc2 : c.status = "active") :
    mark_jobs_removed ⟨[a, b, c], [], []⟩ ["A"] =
      (2, ⟨[a, { b with status := "removed" }, { c with status := "removed" }], [], []⟩) ∧
    mark_jobs_removed
        ⟨[a, { b with status := "removed" }, { c with status := "removed" }], [], []⟩
        ["A"] =
      (0, ⟨[a, { b with status := "removed" }, { c with status := "removed" }], [], []⟩) := by
  constructor <;>
    simp [mark_jobs_removed, ha1, ha2, hb1, hb2, hc1, hc2]

theorem mark_removed_lifecycle_witness :
    mark_jobs_removed ⟨[rowA, rowB, rowC], [], []⟩ ["A"] =
      (2, ⟨[rowA, { rowB with status := "removed" },
            { rowC with status := "removed" }], [], []⟩) ∧
    mark_jobs_removed
        ⟨[rowA, { rowB with status := "removed" }, { rowC with status := "removed" }], [], []⟩
        ["A"] =
      (0, ⟨[rowA, { rowB with status := "removed" },
            { rowC with status := "removed" }], [], []⟩) :=
  mark_removed_lifecycle rowA rowB rowC rfl rfl rfl rfl rfl rfl

theorem takeWhile_append_of_all (p : Char → Bool) (ds rest : List Char)
    (h : ∀ c ∈ ds, p c = true) :
    (ds ++ rest).takeWhile p = ds ++ rest.takeWhile p := by
  induction ds with
  | nil => rfl
  | cons d dt ih =>
    have hd : p d = true := h d (List.mem_cons_self d dt)
    simp only [List.cons_append, List.takeWhile_cons, hd, if_true]
    rw [ih (fun c hc => h c (List.mem_cons_of_mem d hc))]

theorem dropWhile_append_of_all (p : Char → Bool) (ds rest : List Char)
    (h : ∀ c ∈ ds, p c = true) :
    (ds ++ rest).dropWhile p = rest.dropWhile p := by
  induction ds with
  | nil => rfl
  | cons d dt ih =>
    have hd : p d = true := h d (List.mem_cons_self d dt)
    simp only [List.cons_append, List.dropWhile_cons, hd, if_true]
    exact ih (fun c hc => h c (List.mem_cons_of_mem d hc))

theorem parseAmount_comma (ds es : List Char) (hds : ds ≠ [])
    (hds2 : ∀ c ∈ ds, c.isDigit = true) (hes : es ≠ [])
    (hes2 : ∀ c ∈ es, c.isDigit = true) :
    parseAmount ('$' :: (ds ++ ',' :: (es ++ ['K', '/', 'y', 'r']))) =
      some (digitsToNat ds * 1000, []) := by
  have hcomma : Char.isDigit ',' = false := by decide
  have hK : Char.isDigit 'K' = false := by decide
  have h1 : (ds ++ ',' :: (es ++ ['K', '/', 'y', 'r'])).takeWhile Char.isDigit = ds := by
    rw [takeWhile_append_of_all _ _ _ hds2]
    simp [List.takeWhile_cons, hcomma]
  have h2 : (ds ++ ',' :: (es ++ ['K', '/', 'y', 'r'])).dropWhile Char.isDigit =
      ',' :: (es ++ ['K', '/', 'y', 'r']) := by
    rw [dropWhile_append_of_all _ _ _ hds2]
    simp [List.dropWhile_cons, hcomma]
  have h3 : (es ++ ['K', '/', 'y', 'r']).takeWhile Char.isDigit = es := by
    rw [takeWhile_append_of_all _ _ _ hes2]
    simp [List.takeWhile_cons, hK]
  have h4 : (es ++ ['K', '/', 'y', 'r']).dropWhile Char.isDigit = ['K', '/', 'y', 'r'] := by
    rw [dropWhile_append_of_all _ _ _ hes2]
    simp [List.dropWhile_cons, hK]
  have hdse : ds.isEmpty = false := by
    cases ds with
    | nil => exact absurd rfl hds
    | cons _ _ => rfl
  have hese : es.isEmpty = false := by
    cases es with
    | nil => exact absurd rfl hes
    | cons _ _ => rfl
  simp only [parseAmount, if_true, h1, h2, h3, h4, hdse, hese]
  simp [show ('K'.toLower = 'k' ∧ ('/' : Char) = '/' ∧ 'y'.toLower = 'y' ∧
    'r'.toLower = 'r') from by decide]

/-- C3 (amended): for `$<number>K/yr` amounts carrying an optional comma
group, `parse_salary` accepts the comma but the value is the integer formed
by the digits before the comma, multiplied by 1000 — e.g.
`"$100,000K/yr"` parses to `(100000, 100000)`, not the comma-stripped
integer times 1000 (pinned by `test_parse_salary_single_values`). -/
theorem parse_salary_comma_semantics (ds es : List Char) (hds : ds ≠ [])
    (hds2 : ∀ c ∈ ds, c.isDigit = true) (hes : es ≠ [])
    (hes2 : ∀ c ∈ es, c.isDigit = true) :
    parse_salary (some ⟨'$' :: (ds ++ ',' :: (es ++ ['K', '/', 'y', 'r']))⟩) =
      (some (digitsToNat ds * 1000), some (digitsToNat ds * 1000)) := by
  have hpa := parseAmount_comma ds es hds hds2 hes hes2
  have htrim : trimChars ('$' :: (ds ++ ',' :: (es ++ ['K', '/', 'y', 'r']))) =
      '$' :: (ds ++ ',' :: (es ++ ['K', '/', 'y', 'r'])) := by
    unfold trimChars
    rw [List.dropWhile_cons, if_neg (by decide)]
    have hrev : ('$' :: (ds ++ ',' :: (es ++ ['K', '/', 'y', 'r']))).reverse =
        'r' :: ('y' :: ('/' :: ('K' :: (es.reverse ++
          (',' :: (ds.reverse ++ ['$'])))))) := by
      simp [List.reverse_cons, List.reverse_append, List.append_assoc]
    rw [hrev, List.dropWhile_cons, if_neg (by decide), ← hrev, List.reverse_reverse]
  have hrange : parseRange ('$' :: (ds ++ ',' :: (es ++ ['K', '/', 'y', 'r']))) = none := by
    unfold parseRange
    rw [hpa]
    rfl
  have hsingle : parseSingle ('$' :: (ds ++ ',' :: (es ++ ['K', '/', 'y', 'r']))) =
      some (digitsToNat ds * 1000) := by
    unfold parseSingle
    rw [hpa]
  simp only [parse_salary, htrim, hrange, hsingle]

theorem parse_salary_comma_semantics_witness :
    parse_salary
        (some ⟨'$' :: (['1', '0', '0'] ++ ',' :: (['0', '0', '0'] ++ ['K', '/', 'y', 'r']))⟩) =
      (some (digitsToNat ['1', '0', '0'] * 1000),
        some (digitsToNat ['1', '0', '0'] * 1000)) :=
  parse_salary_comma_semantics ['1', '0', '0'] ['0', '0', '0'] (by decide) (by decide)
    (by decide) (by decide)

/-- C3 counterexample: on `"$100,000K/yr"` the parser returns
`(100000, 100000)` (matching the repository's test), while the claim's
comma-stripped-then-times-1000 reading would give `(100000000, 100000000)`;
the two disagree. -/
theorem parse_salary_comma_counterexample :
    parse_salary (some "$100,000K/yr") = (some 100000, some 100000) ∧
    parse_salary_commaStripped "$100,000K/yr" = (some 100000000, some 100000000) ∧
    (100000 : Nat) ≠ 100000000 :=
  ⟨by decide, by decide, by decide⟩

/-- C10: `from_json_dict` is a left inverse of `to_json_dict` on every
record, and `to_json_dict` always emits exactly the eleven canonical keys,
each bound to the record's field (explicit `jnull` for unset optional
fields). -/
theorem json_roundtrip (r : JobRecord) :
    JobRecord.from_json_dict r.to_json_dict = r ∧
    r.to_json_dict.map Prod.fst = canonicalKeys ∧
    jlookup r.to_json_dict "job_id" = some (.jstr r.job_id) ∧
    jlookup r.to_json_dict "title" = some (optJ r.title) ∧
    jlookup r.to_json_dict "company" = some (optJ r.company) ∧
    jlookup r.to_json_dict "work_type" = some (optJ r.work_type) ∧
    jlookup r.to_json_dict "location" = some (optJ r.location) ∧
    jlookup r.to_json_dict "salary" = some (optJ r.salary) ∧
    jlookup r.to_json_dict "benefits" = some (optJ r.benefits) ∧
    jlookup r.to_json_dict "url" = some (optJ r.url) ∧
    jlookup r.to_json_dict "description" = some (optJ r.description) ∧
    jlookup r.to_json_dict "status" = some (.jstr r.status) ∧
    jlookup r.to_json_dict "source" = some (.jstr r.source) := by
  refine ⟨?_, rfl, rfl, rfl, rfl, rfl, rfl, rfl, rfl, rfl, rfl, rfl, rfl⟩
  cases r
  simp [JobRecord.from_json_dict, jgetD, jgetOpt, decodeJ_optJ, decodeJ_jstr, jlookup,
    JobRecord.to_json_dict, List.find?]
